import Mathlib

/-!
Verification of the resilience layer of `avatardocker` (`src/api/resilience/`).

The Python modules are shallowly embedded: pure update logic becomes Lean
functions over explicit state records, wall-clock timestamps become explicit
numeric parameters, float arithmetic becomes exact rational arithmetic,
randomness (uniform draws, Gaussian deltas) becomes explicit
oracle arguments, and exceptions become explicit result constructors.
Exception payloads are represented by natural-number codes and call results by
natural-number values; only their identity matters to the verified claims.
-/

namespace AvatarDocker

/-! ## Circuit breaker (`circuit_breaker.py`) -/

/-- `CircuitState` enum: CLOSED / OPEN / HALF_OPEN. -/
inductive CircuitState where
  | closed
  | opened
  | halfOpen
  deriving DecidableEq, Repr

/-- `CircuitBreakerConfig`. Thresholds are the Python `int` fields (counts,
hence naturals); `timeout_seconds` is a Python `int`;
timestamps are modelled as integers (the claims under verification do not
depend on fractional elapsed times). `excluded_exceptions` is modelled
at the call site by the `Outcome.excluded` event (default config excludes
nothing). -/
structure CircuitBreakerConfig where
  failure_threshold : ℕ
  success_threshold : ℕ
  timeout_seconds : ℤ
  half_open_max_calls : ℕ
  deriving DecidableEq, Repr

/-- The mutable fields of a `CircuitBreaker` instance (timestamps as ℤ). -/
structure CBState where
  state : CircuitState
  failure_count : ℕ
  success_count : ℕ
  last_failure_time : Option ℤ
  last_state_change : ℤ
  half_open_calls : ℕ
  total_calls : ℕ
  total_failures : ℕ
  deriving DecidableEq, Repr

/-- Fresh breaker as built by `CircuitBreaker.__init__` at creation time `t0`. -/
def CBState.init (t0 : ℤ) : CBState :=
  { state := .closed
    failure_count := 0
    success_count := 0
    last_failure_time := none
    last_state_change := t0
    half_open_calls := 0
    total_calls := 0
    total_failures := 0 }

/-- How the wrapped function behaves on an admitted call: it returns, raises a
non-excluded exception, or raises an exception listed in
`config.excluded_exceptions`. -/
inductive Outcome where
  | success
  | failure
  | excluded
  deriving DecidableEq, Repr

/-- One call against the breaker: admission is evaluated at `tAdmit`
(`datetime.now()` inside `_can_execute`) and the success/failure bookkeeping
at `tComplete` (`datetime.now()` inside `_on_failure`). -/
structure CallEvent where
  tAdmit : ℤ
  tComplete : ℤ
  outcome : Outcome
  deriving DecidableEq, Repr

/-- `_transition_to`: sets the state and `last_state_change` (logging only
otherwise). -/
def transitionTo (s : CBState) (new : CircuitState) (now : ℤ) : CBState :=
  { s with state := new, last_state_change := now }

/-- `CircuitBreaker._can_execute`, evaluated at time `now`.  Returns
`(can_execute, time_until_retry)` plus the mutated state: the OPEN branch may
transition to HALF_OPEN (resetting `half_open_calls`), and the HALF_OPEN
branch increments `half_open_calls` when below `half_open_max_calls`. -/
def canExecute (cfg : CircuitBreakerConfig) (s : CBState) (now : ℤ) :
    Bool × ℤ × CBState :=
  match s.state with
  | .closed => (true, 0, s)
  | .opened =>
    match s.last_failure_time with
    | some lf =>
      let elapsed := now - lf
      if cfg.timeout_seconds ≤ elapsed then
        (true, 0, { transitionTo s .halfOpen now with half_open_calls := 0 })
      else
        (false, cfg.timeout_seconds - elapsed, s)
    | none => (false, cfg.timeout_seconds, s)
  | .halfOpen =>
    if s.half_open_calls < cfg.half_open_max_calls then
      (true, 0, { s with half_open_calls := s.half_open_calls + 1 })
    else
      (false, 0, s)

/-- `CircuitBreaker._on_success` at time `now`.  In HALF_OPEN, bump
`success_count` and close once it reaches `success_threshold` (also zeroing
both counters); in CLOSED, decay `failure_count` by one with floor zero
(ℕ subtraction is exactly `max(0, · - 1)`); in OPEN, no effect. -/
def onSuccess (cfg : CircuitBreakerConfig) (s : CBState) (now : ℤ) : CBState :=
  match s.state with
  | .halfOpen =>
    let s' := { s with success_count := s.success_count + 1 }
    if cfg.success_threshold ≤ s'.success_count then
      { transitionTo s' .closed now with failure_count := 0, success_count := 0 }
    else
      s'
  | .closed => { s with failure_count := s.failure_count - 1 }
  | .opened => s

/-- `CircuitBreaker._on_failure` at time `now`: count the failure, stamp
`last_failure_time`, and open the breaker from HALF_OPEN always or from
CLOSED once `failure_count` reaches `failure_threshold`. -/
def onFailure (cfg : CircuitBreakerConfig) (s : CBState) (now : ℤ) : CBState :=
  let s' := { s with
    failure_count := s.failure_count + 1
    total_failures := s.total_failures + 1
    last_failure_time := some now }
  match s'.state with
  | .halfOpen => transitionTo s' .opened now
  | .closed =>
    if cfg.failure_threshold ≤ s'.failure_count then
      transitionTo s' .opened now
    else
      s'
  | .opened => s'

/-- Result of `CircuitBreaker.call`: rejected without invoking the wrapped
function (raising `CircuitOpenError` carrying `time_until_retry`), returned
normally, re-raised a counted failure, or re-raised an excluded exception. -/
inductive CallResult where
  | rejected (timeUntilRetry : ℤ)
  | returned
  | raised
  | raisedExcluded
  deriving DecidableEq, Repr

/-- Whether the wrapped function was invoked for this call result. -/
def CallResult.invoked : CallResult → Bool
  | .rejected _ => false
  | _ => true

/-- `CircuitBreaker.call`: evaluate admission under the lock (raising
`CircuitOpenError` if rejected), then `total_calls += 1`, invoke the wrapped
function and apply the success / failure / excluded bookkeeping. -/
def callCB (cfg : CircuitBreakerConfig) (s : CBState) (e : CallEvent) :
    CallResult × CBState :=
  match canExecute cfg s e.tAdmit with
  | (false, t, s1) => (.rejected t, s1)
  | (true, _, s1) =>
    let s2 := { s1 with total_calls := s1.total_calls + 1 }
    match e.outcome with
    | .success => (.returned, onSuccess cfg s2 e.tComplete)
    | .excluded => (.raisedExcluded, s2)
    | .failure => (.raised, onFailure cfg s2 e.tComplete)

/-- Run a sequence of calls against the breaker, returning the final state. -/
def runTrace (cfg : CircuitBreakerConfig) (s : CBState) (es : List CallEvent) :
    CBState :=
  es.foldl (fun st e => (callCB cfg st e).2) s

/-- Number of calls admitted to the wrapped function while the breaker state
stays HALF_OPEN: walk the events, counting invoked calls, and stop as soon as
the state is no longer HALF_OPEN. -/
def hoAdmitted (cfg : CircuitBreakerConfig) : CBState → List CallEvent → ℕ
  | _, [] => 0
  | s, e :: rest =>
    match s.state with
    | .halfOpen =>
      let r := callCB cfg s e
      (if r.1.invoked then 1 else 0) + hoAdmitted cfg r.2 rest
    | _ => 0

/-! ## Retry manager (`retry_manager.py`) -/

/-- `RetryConfig`.  `max_attempts` is a Python `int` (kept as ℤ so that
non-positive configurations are representable, matching `range(max_attempts)`
being empty for them); the delay parameters are floats, embedded as
rationals. The retryable / non-retryable tuples are modelled by the
per-attempt classification in `AttemptOutcome`. -/
structure RetryConfig where
  max_attempts : ℤ
  base_delay : ℚ
  max_delay : ℚ
  exponential_base : ℚ
  jitter : Bool
  jitter_range : ℚ
  deriving DecidableEq, Repr

/-- Behaviour of one invocation of the wrapped function, after matching the
raised exception (if any) against the config's exception tuples in source
order: `non_retryable_exceptions` is tested before `retryable_exceptions`,
and an exception matching neither tuple escapes `execute` uncaught. -/
inductive AttemptOutcome where
  | ok (v : ℕ)
  | nonRetryable (e : ℕ)
  | retryable (e : ℕ)
  | unhandled (e : ℕ)
  deriving DecidableEq, Repr

/-- Result of `RetryManager.execute`; each constructor records how many times
the wrapped function was invoked. `exhausted` is the
`RetryExhaustedError(attempts, last_error)` raised after the loop. -/
inductive RetryResult where
  | success (v : ℕ) (invocations : ℕ)
  | nonRetryableRaised (e : ℕ) (invocations : ℕ)
  | unhandledRaised (e : ℕ) (invocations : ℕ)
  | exhausted (attempts : ℤ) (last_error : Option ℕ) (invocations : ℕ)
  deriving DecidableEq, Repr

/-- The `for attempt in range(max_attempts)` loop of `RetryManager.execute`:
`fuel` is the number of iterations left, `attempt` the current zero-based
index, `lastErr` the `last_exception` local, `inv` the invocation count so
far. -/
def executeAux (f : ℕ → AttemptOutcome) (maxAttempts : ℤ) :
    ℕ → ℕ → Option ℕ → ℕ → RetryResult
  | 0, _, lastErr, inv => .exhausted maxAttempts lastErr inv
  | fuel + 1, attempt, lastErr, inv =>
    match f attempt with
    | .ok v => .success v (inv + 1)
    | .nonRetryable e => .nonRetryableRaised e (inv + 1)
    | .unhandled e => .unhandledRaised e (inv + 1)
    | .retryable e => executeAux f maxAttempts fuel (attempt + 1) (some e) (inv + 1)

/-- `RetryManager.execute`: run the attempt loop (`range(max_attempts)` has
`max(0, max_attempts)` iterations) and raise
`RetryExhaustedError(max_attempts, last_exception)` if it falls through.
The inter-attempt `asyncio.sleep(calculate_delay(attempt))` only adds latency
and is not part of the state. -/
def RetryManager.execute (cfg : RetryConfig) (f : ℕ → AttemptOutcome) :
    RetryResult :=
  executeAux f cfg.max_attempts cfg.max_attempts.toNat 0 none 0

/-- `RetryManager.calculate_delay` for zero-indexed `attempt`, with the
uniform draw `random.random()` passed in as `u ∈ [0, 1)`:
`delay = min(base_delay * exponential_base ** attempt, max_delay)`, then if
`jitter` is set, `delay *= 1 + (u - 0.5) * jitter_range * 2`. -/
def RetryManager.calculate_delay (cfg : RetryConfig) (attempt : ℕ) (u : ℚ) :
    ℚ :=
  let delay := min (cfg.base_delay * cfg.exponential_base ^ attempt) cfg.max_delay
  if cfg.jitter then delay * (1 + (u - 1/2) * cfg.jitter_range * 2) else delay

/-! ## Fallback chain (`fallback_registry.py`)

A chain is modelled for one fixed argument tuple: each callable is replaced by
the outcome it produces on those arguments. -/

/-- Outcome of invoking one chain option: a returned value or a raised
exception. -/
inductive CallOutcome where
  | ok (v : ℕ)
  | error (e : ℕ)
  deriving DecidableEq, Repr

/-- `FallbackChain` dataclass. -/
structure FallbackChain where
  name : String
  primary : CallOutcome
  fallbacks : List (ℤ × String × CallOutcome)
  current_provider : String
  total_calls : ℕ
  fallback_calls : ℕ
  deriving DecidableEq, Repr

/-- `FallbackRegistry.register`: a fresh chain. -/
def FallbackChain.register (name : String) (primary : CallOutcome) :
    FallbackChain :=
  { name := name
    primary := primary
    fallbacks := []
    current_provider := "primary"
    total_calls := 0
    fallback_calls := 0 }

/-- `FallbackChain.add_fallback`: append, then `self.fallbacks.sort(key=λx, x[0])`.
Python's sort is stable; insertion sort on `≤` over the priority is likewise
stable, and the verified claims only involve distinct priorities. -/
def FallbackChain.add_fallback (c : FallbackChain) (fb : CallOutcome)
    (priority : ℤ) (n : String) : FallbackChain :=
  { c with
    fallbacks :=
      (c.fallbacks ++ [(priority, n, fb)]).insertionSort
        (fun a b => a.1 ≤ b.1) }

/-- The fallback loop of `FallbackChain.execute`: walk the (sorted) fallback
list, accumulating `(name, error)` pairs for failures; return the first
success as `some (name, value)` together with the final error list and the
names invoked (in order, up to and including the first success). -/
def tryFallbacks :
    List (ℤ × String × CallOutcome) → List (String × ℕ) →
      Option (String × ℕ) × List (String × ℕ) × List String
  | [], errs => (none, errs, [])
  | (_, n, fb) :: rest, errs =>
    match fb with
    | .ok v => (some (n, v), errs, [n])
    | .error e =>
      let r := tryFallbacks rest (errs ++ [(n, e)])
      (r.1, r.2.1, n :: r.2.2)

/-- The error code carried by a failing outcome (`0` for a success, unused). -/
def errVal : CallOutcome → ℕ
  | .ok _ => 0
  | .error e => e

/-- Overall result of `FallbackChain.execute`: a returned value, or the
aggregate `RuntimeError` enumerating every attempted option with its error. -/
inductive ExecResult where
  | ok (v : ℕ)
  | allFailed (errors : List (String × ℕ))
  deriving DecidableEq, Repr

/-- `FallbackChain.execute`: bump `total_calls`, try `primary` (on success set
`current_provider := "primary"`), otherwise try the fallbacks in list order —
the first success bumps `fallback_calls` and sets `current_provider` to its
name.  Also returns the names of the options that were actually invoked, in
invocation order. -/
def FallbackChain.execute (c : FallbackChain) :
    ExecResult × FallbackChain × List String :=
  let c1 := { c with total_calls := c.total_calls + 1 }
  match c.primary with
  | .ok v => (.ok v, { c1 with current_provider := "primary" }, ["primary"])
  | .error e =>
    match tryFallbacks c.fallbacks [("primary", e)] with
    | (some nv, _, inv) =>
      (.ok nv.2,
        { c1 with
          fallback_calls := c1.fallback_calls + 1
          current_provider := nv.1 },
        "primary" :: inv)
    | (none, errs, inv) => (.allFailed errs, c1, "primary" :: inv)

/-! ## Config annealer (`config_annealer.py`) -/

/-- `ConfigParameter`.  Values are floats-or-ints in the source, embedded as
rationals; `is_integer` is the flag that `__post_init__` sets when the initial
`current_value` is an `int`. -/
structure ConfigParameter where
  name : String
  current_value : ℚ
  min_value : ℚ
  max_value : ℚ
  step : ℚ
  is_integer : Bool
  deriving DecidableEq, Repr

/-- Python `int(x)` on a float: truncation toward zero. -/
def truncRat (q : ℚ) : ℤ :=
  if 0 ≤ q then ⌊q⌋ else ⌈q⌉

/-- `ConfigParameter.clamp`: `clamped = max(min_value, min(max_value, value))`,
then `int(clamped)` if `is_integer`. -/
def ConfigParameter.clamp (p : ConfigParameter) (value : ℚ) : ℚ :=
  let clamped := max p.min_value (min p.max_value value)
  if p.is_integer then (truncRat clamped : ℚ) else clamped

/-- `ConfigParameter.perturb`, with the Gaussian draw
`delta = random.gauss(0, step * temperature)` passed in as an oracle:
clamp `current_value + delta`. -/
def ConfigParameter.perturb (p : ConfigParameter) (delta : ℚ) : ℚ :=
  p.clamp (p.current_value + delta)

/-- Per-parameter effect of `ConfigAnnealer.generate_neighbor`: with the coin
`change` (`random.random() < 0.3 + 0.4 * temperature`) decided and the
Gaussian delta supplied, the candidate value is either `perturb`'s output or
the unchanged `current_value`. -/
def neighborValue (p : ConfigParameter) (change : Bool) (delta : ℚ) : ℚ :=
  if change then p.perturb delta else p.current_value

/-- Per-parameter effect of `ConfigAnnealer.apply_config`: the value is
written to `current_value` verbatim — no clamping happens here. -/
def applyValue (p : ConfigParameter) (v : ℚ) : ConfigParameter :=
  { p with current_value := v }

/-! ## Health monitor (`health_monitor.py`) -/

/-- `ServiceStatus` enum. -/
inductive ServiceStatus where
  | healthy
  | degraded
  | unhealthy
  | unknown
  deriving DecidableEq, Repr

/-- Where `ServiceHealth.metadata` last came from (its contents — check
result or exception type/message — are opaque to the verified claims). -/
inductive HealthMetadata where
  | initial
  | fromResult
  | fromError
  deriving DecidableEq, Repr

/-- `ServiceHealth` dataclass (latencies and rates as rationals). -/
structure ServiceHealth where
  name : String
  status : ServiceStatus
  last_check : Option ℤ
  consecutive_failures : ℕ
  consecutive_successes : ℕ
  latency_ms : ℚ
  error_rate : ℚ
  metadata : HealthMetadata
  deriving DecidableEq, Repr

/-- One health check either returns (with the measured latency in ms) or
raises. -/
inductive CheckOutcome where
  | ok (latency : ℚ)
  | err
  deriving DecidableEq, Repr

/-- The update `HealthMonitor.check_service` performs on a registered
service's `ServiceHealth`, given the monitor's two latency thresholds
(`healthy_threshold = 100`, `degraded_threshold = 500` in `__init__`), the
check outcome and the current time. -/
def HealthMonitor.check_service (healthyThreshold degradedThreshold : ℚ)
    (h : ServiceHealth) (oc : CheckOutcome) (now : ℤ) : ServiceHealth :=
  match oc with
  | .ok latency =>
    { h with
      last_check := some now
      latency_ms := latency
      consecutive_failures := 0
      consecutive_successes := h.consecutive_successes + 1
      status :=
        if latency < healthyThreshold then .healthy
        else if latency < degradedThreshold then .degraded
        else .degraded
      error_rate := h.error_rate * (9/10)
      metadata := .fromResult }
  | .err =>
    { h with
      last_check := some now
      consecutive_failures := h.consecutive_failures + 1
      consecutive_successes := 0
      status := .unhealthy
      error_rate := h.error_rate * (9/10) + 1/10
      metadata := .fromError }

/-! ## Resilient service (`resilient_service.py`) -/

/-- Result of the composed `self.circuit_breakers[name].call(execute)` where
`execute` runs `self.retry_managers[name].execute(func)` (the default path of
`call_dependency`, with both wrappers registered and enabled). -/
inductive ComposedResult where
  | ok (v : ℕ)
  | circuitOpen (timeUntilRetry : ℤ)
  | retryExhausted (attempts : ℤ) (lastErr : Option ℕ)
  | raised (e : ℕ)
  deriving DecidableEq, Repr

/-- The retry-then-circuit-breaker composition: the breaker admits or rejects
at `tAdmit`; if admitted, the whole retry loop runs as the breaker's single
wrapped call, and any exception escaping it (`RetryExhaustedError`, a
non-retryable error, or an unclassified one) is counted as a breaker failure
at `tComplete` (the default `excluded_exceptions = ()` excludes nothing). -/
def composedCall (cfg : CircuitBreakerConfig) (s : CBState) (tAdmit tComplete : ℤ)
    (rcfg : RetryConfig) (f : ℕ → AttemptOutcome) : ComposedResult × CBState :=
  match canExecute cfg s tAdmit with
  | (false, t, s1) => (.circuitOpen t, s1)
  | (true, _, s1) =>
    let s2 := { s1 with total_calls := s1.total_calls + 1 }
    match RetryManager.execute rcfg f with
    | .success v _ => (.ok v, onSuccess cfg s2 tComplete)
    | .exhausted a le _ => (.retryExhausted a le, onFailure cfg s2 tComplete)
    | .nonRetryableRaised e _ => (.raised e, onFailure cfg s2 tComplete)
    | .unhandledRaised e _ => (.raised e, onFailure cfg s2 tComplete)

/-- What `call_dependency` does for the caller: return the composed value,
return whatever the registered fallback chain produced, or re-raise the
composed call's exception when no chain is registered. -/
inductive CDResult where
  | ok (v : ℕ)
  | fromFallback (r : ExecResult)
  | raisedCircuitOpen (timeUntilRetry : ℤ)
  | raisedRetryExhausted (attempts : ℤ) (lastErr : Option ℕ)
  | raisedOther (e : ℕ)
  deriving DecidableEq, Repr

/-- Re-raising the composed call's exception unchanged. -/
def propagate : ComposedResult → CDResult
  | .ok v => .ok v
  | .circuitOpen t => .raisedCircuitOpen t
  | .retryExhausted a le => .raisedRetryExhausted a le
  | .raised e => .raisedOther e

/-- `ResilientService.call_dependency` (default flags, breaker and retry
manager registered for `name`): run the composed call; on success return its
result; on `CircuitOpenError` or any other exception, delegate to the
fallback chain registered for `name` — invoked with the original arguments,
which are baked into `fb`'s callables — if there is one, else re-raise.
(The request/error/latency metric counters only feed `get_metrics` and are
not modelled.) -/
def call_dependency (cfg : CircuitBreakerConfig) (s : CBState)
    (tAdmit tComplete : ℤ) (rcfg : RetryConfig) (f : ℕ → AttemptOutcome)
    (fb : Option FallbackChain) : CDResult × CBState × Option FallbackChain :=
  match composedCall cfg s tAdmit tComplete rcfg f with
  | (.ok v, s') => (.ok v, s', fb)
  | (r, s') =>
    match fb with
    | some chain =>
      let e := chain.execute
      (.fromFallback e.1, s', some e.2.1)
    | none => (propagate r, s', none)

/-! ## Retry manager claims (C5, C6, C10) -/

/-- Running the attempt loop when every attempt raises a retryable exception:
it consumes all the fuel, invoking the function once per iteration, and falls
through to `RetryExhaustedError` carrying the last attempt's exception. -/
theorem executeAux_retryable_run (f : ℕ → AttemptOutcome) (g : ℕ → ℕ)
    (hf : ∀ i, f i = .retryable (g i)) (maxA : ℤ) :
    ∀ (fuel a inv : ℕ) (le : Option ℕ), 1 ≤ fuel →
      executeAux f maxA fuel a le inv
        = .exhausted maxA (some (g (a + fuel - 1))) (inv + fuel) := by
  intro fuel
  induction fuel with
  | zero => intro a inv le h; exact absurd h (by omega)
  | succ n ih =>
    intro a inv le _
    rcases Nat.eq_zero_or_pos n with hn | hn
    · subst hn
      simp [executeAux, hf a]
    · have h1 : a + 1 + n - 1 = a + (n + 1) - 1 := by omega
      have h2 : inv + 1 + n = inv + (n + 1) := by omega
      simp only [executeAux, hf a]
      rw [ih (a + 1) (inv + 1) (some (g a)) hn, h1, h2]

/-- C5: with `max_attempts = N ≥ 1` and a function raising a retryable (and
not non-retryable) exception on every invocation, `RetryManager.execute`
invokes the function exactly `N` times and raises `RetryExhaustedError` with
`attempts == N` and `last_error` the exception of the final (`N-1`-indexed)
attempt. -/
theorem claim_C5 (cfg : RetryConfig) (f : ℕ → AttemptOutcome) (g : ℕ → ℕ)
    (N : ℕ) (hN : cfg.max_attempts = (N : ℤ)) (hpos : 1 ≤ N)
    (hf : ∀ i, f i = .retryable (g i)) :
    RetryManager.execute cfg f
      = .exhausted cfg.max_attempts (some (g (N - 1))) N := by
  unfold RetryManager.execute
  rw [hN]
  have ht : ((N : ℤ)).toNat = N := Int.toNat_natCast N
  rw [ht]
  have h := executeAux_retryable_run f g hf (N : ℤ) N 0 0 none hpos
  simpa using h

/-- Witness for C5 at `max_attempts = 3` with attempt `i` raising error code
`i + 40`. -/
theorem claim_C5_witness :
    RetryManager.execute ⟨3, 1, 60, 2, true, 1/4⟩ (fun i => .retryable (i + 40))
      = .exhausted 3 (some 42) 3 :=
  claim_C5 ⟨3, 1, 60, 2, true, 1/4⟩ (fun i => .retryable (i + 40))
    (fun i => i + 40) 3 rfl (by norm_num) (fun _ => rfl)

/-- C10: with `max_attempts ≤ 0`, the attempt loop body never runs
(`range(max_attempts)` is empty), so `execute` raises
`RetryExhaustedError(attempts = max_attempts, last_error = None)` without
ever invoking the function. -/
theorem claim_C10 (cfg : RetryConfig) (f : ℕ → AttemptOutcome)
    (h : cfg.max_attempts ≤ 0) :
    RetryManager.execute cfg f = .exhausted cfg.max_attempts none 0 := by
  unfold RetryManager.execute
  rw [Int.toNat_of_nonpos h]
  rfl

/-- Witness for C10 at `max_attempts = -2` and an always-failing function. -/
theorem claim_C10_witness :
    (-2 : ℤ) ≤ 0
    ∧ RetryManager.execute ⟨-2, 1, 60, 2, true, 1/4⟩ (fun _ => .retryable 7)
        = .exhausted (-2) none 0 :=
  ⟨by norm_num, claim_C10 ⟨-2, 1, 60, 2, true, 1/4⟩ (fun _ => .retryable 7) (by norm_num)⟩

/-- C6: without jitter the delay is exactly
`min(base_delay * exponential_base ** attempt, max_delay)`; with jitter it is
that base value times a factor within `[1 - jitter_range, 1 + jitter_range]`,
for every uniform draw `u ∈ [0, 1)` (and nonnegative `jitter_range`). -/
theorem claim_C6 (cfg : RetryConfig) (attempt : ℕ) (u : ℚ)
    (hjr : 0 ≤ cfg.jitter_range) (hu0 : 0 ≤ u) (hu1 : u < 1) :
    (cfg.jitter = false →
      RetryManager.calculate_delay cfg attempt u
        = min (cfg.base_delay * cfg.exponential_base ^ attempt) cfg.max_delay)
    ∧ (cfg.jitter = true →
      ∃ factor,
        RetryManager.calculate_delay cfg attempt u
          = min (cfg.base_delay * cfg.exponential_base ^ attempt) cfg.max_delay
              * factor
        ∧ 1 - cfg.jitter_range ≤ factor
        ∧ factor ≤ 1 + cfg.jitter_range) := by
  constructor
  · intro hj
    simp [RetryManager.calculate_delay, hj]
  · intro hj
    refine ⟨1 + (u - 1/2) * cfg.jitter_range * 2, ?_, ?_, ?_⟩
    · simp [RetryManager.calculate_delay, hj]
    · nlinarith
    · nlinarith

/-- Witness for C6 with the default config (`jitter` on, `jitter_range = 1/4`)
at attempt 2 and draw `u = 3/4`. -/
theorem claim_C6_witness :
    ∃ factor,
      RetryManager.calculate_delay ⟨3, 1, 60, 2, true, 1/4⟩ 2 (3/4)
        = min ((1 : ℚ) * 2 ^ 2) 60 * factor
      ∧ 1 - (1/4 : ℚ) ≤ factor
      ∧ factor ≤ 1 + (1/4 : ℚ) :=
  (claim_C6 ⟨3, 1, 60, 2, true, 1/4⟩ 2 (3/4) (by norm_num) (by norm_num)
    (by norm_num)).2 rfl

/-! ## Config annealer claims (C2) -/

/-- Truncation toward zero stays inside an interval with integer endpoints. -/
theorem truncRat_mem (q : ℚ) (m n : ℤ) (hm : (m : ℚ) ≤ q) (hn : q ≤ (n : ℚ)) :
    m ≤ truncRat q ∧ truncRat q ≤ n := by
  unfold truncRat
  split
  · refine ⟨Int.le_floor.mpr hm, ?_⟩
    calc ⌊q⌋ ≤ ⌊(n : ℚ)⌋ := Int.floor_le_floor hn
      _ = n := Int.floor_intCast n
  · refine ⟨?_, Int.ceil_le.mpr hn⟩
    calc m = ⌈(m : ℚ)⌉ := (Int.ceil_intCast m).symm
      _ ≤ ⌈q⌉ := Int.ceil_le_ceil hm

/-- `clamp` lands in `[min_value, max_value]` provided the range is nonempty
and, for integer parameters, the bounds are themselves integers. -/
theorem clamp_mem (p : ConfigParameter) (v : ℚ)
    (hminmax : p.min_value ≤ p.max_value)
    (hint : p.is_integer = true →
      (∃ m : ℤ, p.min_value = (m : ℚ)) ∧ (∃ n : ℤ, p.max_value = (n : ℚ))) :
    p.min_value ≤ p.clamp v ∧ p.clamp v ≤ p.max_value := by
  unfold ConfigParameter.clamp
  have h1 : p.min_value ≤ max p.min_value (min p.max_value v) := le_max_left _ _
  have h2 : max p.min_value (min p.max_value v) ≤ p.max_value :=
    max_le hminmax (min_le_left _ _)
  split
  · next hi =>
    obtain ⟨⟨m, hm⟩, ⟨n, hn⟩⟩ := hint hi
    have ht := truncRat_mem (max p.min_value (min p.max_value v)) m n
      (hm ▸ h1) (hn ▸ h2)
    constructor
    · show p.min_value ≤ ((truncRat (max p.min_value (min p.max_value v)) : ℤ) : ℚ)
      calc p.min_value = (m : ℚ) := hm
        _ ≤ ((truncRat (max p.min_value (min p.max_value v)) : ℤ) : ℚ) := by
            exact_mod_cast ht.1
    · show ((truncRat (max p.min_value (min p.max_value v)) : ℤ) : ℚ) ≤ p.max_value
      calc ((truncRat (max p.min_value (min p.max_value v)) : ℤ) : ℚ) ≤ (n : ℚ) := by
            exact_mod_cast ht.2
        _ = p.max_value := hn.symm
  · exact ⟨h1, h2⟩

/-- C2 (amended): with a nonempty range whose bounds are integral whenever
`is_integer` is set, `clamp` — and hence `perturb`, for every temperature and
Gaussian draw — returns a value in `[min_value, max_value]`; and under those
conditions `apply_config`-ing any `generate_neighbor` candidate (a `perturb`
output or the unchanged current value) keeps `current_value` in range
whenever it already was.  (`register_parameter` and `apply_config` themselves
do not clamp.) -/
theorem claim_C2_amended (p : ConfigParameter) (delta v : ℚ) (change : Bool)
    (hminmax : p.min_value ≤ p.max_value)
    (hint : p.is_integer = true →
      (∃ m : ℤ, p.min_value = (m : ℚ)) ∧ (∃ n : ℤ, p.max_value = (n : ℚ))) :
    (p.min_value ≤ p.clamp v ∧ p.clamp v ≤ p.max_value)
    ∧ (p.min_value ≤ p.perturb delta ∧ p.perturb delta ≤ p.max_value)
    ∧ (p.min_value ≤ p.current_value → p.current_value ≤ p.max_value →
        p.min_value ≤ (applyValue p (neighborValue p change delta)).current_value
        ∧ (applyValue p (neighborValue p change delta)).current_value
            ≤ p.max_value) := by
  refine ⟨clamp_mem p v hminmax hint, clamp_mem p _ hminmax hint, ?_⟩
  intro hlo hhi
  show p.min_value ≤ neighborValue p change delta
    ∧ neighborValue p change delta ≤ p.max_value
  unfold neighborValue
  split
  · exact clamp_mem p _ hminmax hint
  · exact ⟨hlo, hhi⟩

/-- Witness for the amended C2: an integer parameter on `[0, 10]`, perturbed
by `+20` from `4`, stays in range. -/
theorem claim_C2_amended_witness :
    ((0 : ℚ) ≤ (⟨"pool_size", 4, 0, 10, 1, true⟩ : ConfigParameter).clamp 24
      ∧ (⟨"pool_size", 4, 0, 10, 1, true⟩ : ConfigParameter).clamp 24 ≤ 10)
    ∧ ((0 : ℚ) ≤ (⟨"pool_size", 4, 0, 10, 1, true⟩ : ConfigParameter).perturb 20
      ∧ (⟨"pool_size", 4, 0, 10, 1, true⟩ : ConfigParameter).perturb 20 ≤ 10)
    ∧ ((0 : ℚ) ≤ 4 → (4 : ℚ) ≤ 10 →
        (0 : ℚ) ≤ (applyValue ⟨"pool_size", 4, 0, 10, 1, true⟩
            (neighborValue ⟨"pool_size", 4, 0, 10, 1, true⟩ true 20)).current_value
        ∧ (applyValue ⟨"pool_size", 4, 0, 10, 1, true⟩
            (neighborValue ⟨"pool_size", 4, 0, 10, 1, true⟩ true 20)).current_value
            ≤ 10) :=
  claim_C2_amended ⟨"pool_size", 4, 0, 10, 1, true⟩ 20 24 true (by norm_num)
    (fun _ => ⟨⟨0, by norm_num⟩, ⟨10, by norm_num⟩⟩)

/-- C2 is false as stated: for an integer parameter with fractional bounds
`[1/2, 5/2]`, `perturb` can return `int(3/5) = 0`, which lies below
`min_value` — `clamp`'s `int(...)` truncation escapes the interval, so
`current_value ∈ [min_value, max_value]` is not enforced on every write.
(Moreover `register_parameter` and `apply_config` store values verbatim,
without clamping.) -/
theorem claim_C2_counterexample :
    (⟨"weight", 1, 1/2, 5/2, 1, true⟩ : ConfigParameter).perturb (-(2/5)) = 0
    ∧ ¬ ((⟨"weight", 1, 1/2, 5/2, 1, true⟩ : ConfigParameter).min_value
          ≤ (⟨"weight", 1, 1/2, 5/2, 1, true⟩ : ConfigParameter).perturb (-(2/5))) := by
  have h : (⟨"weight", 1, 1/2, 5/2, 1, true⟩ : ConfigParameter).perturb (-(2/5)) = 0 := by
    norm_num [ConfigParameter.perturb, ConfigParameter.clamp, truncRat]
  refine ⟨h, ?_⟩
  rw [h]
  norm_num

/-! ## Health monitor claims (C8) -/

/-- C8: at the default thresholds (100 ms / 500 ms), a successful check is
Healthy exactly when latency < 100 ms and Degraded otherwise (both
non-healthy latency bands map to Degraded), resetting `consecutive_failures`,
bumping `consecutive_successes` and decaying `error_rate` by 0.9; a raising
check is always Unhealthy, bumping `consecutive_failures`, resetting
`consecutive_successes` and setting `error_rate := error_rate*0.9 + 0.1`. -/
theorem claim_C8 (h : ServiceHealth) (lat : ℚ) (now : ℤ) :
    ((HealthMonitor.check_service 100 500 h (.ok lat) now).status = .healthy
        ↔ lat < 100)
    ∧ (¬ lat < 100 →
        (HealthMonitor.check_service 100 500 h (.ok lat) now).status = .degraded)
    ∧ (HealthMonitor.check_service 100 500 h (.ok lat) now).status ≠ .unhealthy
    ∧ (HealthMonitor.check_service 100 500 h (.ok lat) now).consecutive_failures = 0
    ∧ (HealthMonitor.check_service 100 500 h (.ok lat) now).consecutive_successes
        = h.consecutive_successes + 1
    ∧ (HealthMonitor.check_service 100 500 h (.ok lat) now).error_rate
        = h.error_rate * (9/10)
    ∧ (HealthMonitor.check_service 100 500 h .err now).status = .unhealthy
    ∧ (HealthMonitor.check_service 100 500 h .err now).consecutive_failures
        = h.consecutive_failures + 1
    ∧ (HealthMonitor.check_service 100 500 h .err now).consecutive_successes = 0
    ∧ (HealthMonitor.check_service 100 500 h .err now).error_rate
        = h.error_rate * (9/10) + 1/10 := by
  unfold HealthMonitor.check_service
  refine ⟨?_, ?_, ?_, rfl, rfl, rfl, rfl, rfl, rfl, rfl⟩
  · by_cases hl : lat < 100
    · simp [hl]
    · by_cases hl5 : lat < 500 <;> simp [hl, hl5]
  · intro hl
    by_cases hl5 : lat < 500 <;> simp [hl, hl5]
  · by_cases hl : lat < 100
    · simp [hl]
    · by_cases hl5 : lat < 500 <;> simp [hl, hl5]

/-- Witness for C8 (implication conjuncts) at a concrete 250 ms success on a
fresh service record. -/
theorem claim_C8_witness :
    ((HealthMonitor.check_service 100 500
        ⟨"db", .unknown, none, 0, 0, 0, 0, .initial⟩ (.ok 250) 7).status = .healthy
      ↔ (250 : ℚ) < 100)
    ∧ (¬ (250 : ℚ) < 100 →
        (HealthMonitor.check_service 100 500
          ⟨"db", .unknown, none, 0, 0, 0, 0, .initial⟩ (.ok 250) 7).status
            = .degraded)
    ∧ (HealthMonitor.check_service 100 500
        ⟨"db", .unknown, none, 0, 0, 0, 0, .initial⟩ (.ok 250) 7).status
          ≠ .unhealthy
    ∧ (HealthMonitor.check_service 100 500
        ⟨"db", .unknown, none, 0, 0, 0, 0, .initial⟩ (.ok 250) 7).consecutive_failures
          = 0
    ∧ (HealthMonitor.check_service 100 500
        ⟨"db", .unknown, none, 0, 0, 0, 0, .initial⟩ (.ok 250) 7).consecutive_successes
          = 0 + 1
    ∧ (HealthMonitor.check_service 100 500
        ⟨"db", .unknown, none, 0, 0, 0, 0, .initial⟩ (.ok 250) 7).error_rate
          = 0 * (9/10)
    ∧ (HealthMonitor.check_service 100 500
        ⟨"db", .unknown, none, 0, 0, 0, 0, .initial⟩ .err 7).status = .unhealthy
    ∧ (HealthMonitor.check_service 100 500
        ⟨"db", .unknown, none, 0, 0, 0, 0, .initial⟩ .err 7).consecutive_failures
          = 0 + 1
    ∧ (HealthMonitor.check_service 100 500
        ⟨"db", .unknown, none, 0, 0, 0, 0, .initial⟩ .err 7).consecutive_successes
          = 0
    ∧ (HealthMonitor.check_service 100 500
        ⟨"db", .unknown, none, 0, 0, 0, 0, .initial⟩ .err 7).error_rate
          = 0 * (9/10) + 1/10 :=
  claim_C8 ⟨"db", .unknown, none, 0, 0, 0, 0, .initial⟩ 250 7

/-! ## Fallback chain claims (C7) -/

/-- When every fallback in the list fails, the fallback loop returns no
success, appends each `(name, error)` pair in order, and reports every
fallback as invoked. -/
theorem tryFallbacks_all_error :
    ∀ (fbs : List (ℤ × String × CallOutcome)),
      (∀ x ∈ fbs, ∃ ec, x.2.2 = CallOutcome.error ec) →
      ∀ errs, tryFallbacks fbs errs
        = (none, errs ++ fbs.map (fun x => (x.2.1, errVal x.2.2)),
           fbs.map (fun x => x.2.1)) := by
  intro fbs
  induction fbs with
  | nil => intro _ errs; simp [tryFallbacks]
  | cons hd rest ih =>
    intro hall errs
    obtain ⟨p, n, fb⟩ := hd
    obtain ⟨ec, hec⟩ := hall (p, n, fb) (by simp)
    simp only at hec
    subst hec
    have hrest : ∀ x ∈ rest, ∃ ec, x.2.2 = CallOutcome.error ec :=
      fun x hx => hall x (by simp [hx])
    simp [tryFallbacks, ih hrest, errVal]

/-- C7: with a failing primary, if the first (priority-0, after sorting)
fallback succeeds then `execute` returns its value, sets `current_provider`
to its name, increments `fallback_calls` by exactly one, and invokes nothing
beyond the primary and that fallback — in particular the priority-1 entry in
`rest` is never invoked; and if the primary and every fallback fail,
`execute` produces the aggregate error enumerating each attempted option
with its exception, in attempt order. -/
theorem claim_C7 (c : FallbackChain) (e : ℕ) (hp : c.primary = .error e) :
    (∀ n0 v rest, c.fallbacks = (0, n0, CallOutcome.ok v) :: rest →
      c.execute
        = (.ok v,
           { c with
              total_calls := c.total_calls + 1
              fallback_calls := c.fallback_calls + 1
              current_provider := n0 },
           ["primary", n0]))
    ∧ ((∀ x ∈ c.fallbacks, ∃ ec, x.2.2 = CallOutcome.error ec) →
      c.execute
        = (.allFailed
            (("primary", e) :: c.fallbacks.map (fun x => (x.2.1, errVal x.2.2))),
           { c with total_calls := c.total_calls + 1 },
           "primary" :: c.fallbacks.map (fun x => x.2.1))) := by
  constructor
  · intro n0 v rest hfb
    simp [FallbackChain.execute, hp, hfb, tryFallbacks]
  · intro hall
    simp [FallbackChain.execute, hp, tryFallbacks_all_error c.fallbacks hall]

/-- Witness for C7: a chain whose primary fails with error 9 and whose
priority-0 fallback (named "cache") succeeds with value 5; the priority-1
fallback is present but never invoked. -/
theorem claim_C7_witness :
    (⟨"tts", .error 9, [(0, "cache", .ok 5), (1, "stub", .ok 6)], "primary", 3, 1⟩
        : FallbackChain).execute
      = (.ok 5,
         ⟨"tts", .error 9, [(0, "cache", .ok 5), (1, "stub", .ok 6)], "cache", 4, 2⟩,
         ["primary", "cache"]) :=
  (claim_C7
    ⟨"tts", .error 9, [(0, "cache", .ok 5), (1, "stub", .ok 6)], "primary", 3, 1⟩
    9 rfl).1 "cache" 5 [(1, "stub", .ok 6)] rfl

/-! ## Resilient service claims (C9) -/

/-- C9: `call_dependency` returns the composed (retry inside circuit breaker)
call's value when it succeeds; when the composed call raises
`CircuitOpenError` or any other exception, it returns whatever the registered
fallback chain for the dependency produces (the chain being invoked with the
original arguments), and with no registered chain the exception propagates
unchanged. -/
theorem claim_C9 (cfg : CircuitBreakerConfig) (s : CBState) (tA tC : ℤ)
    (rcfg : RetryConfig) (f : ℕ → AttemptOutcome) (fb : Option FallbackChain) :
    (∀ v s', composedCall cfg s tA tC rcfg f = (.ok v, s') →
      call_dependency cfg s tA tC rcfg f fb = (.ok v, s', fb))
    ∧ (∀ r s', composedCall cfg s tA tC rcfg f = (r, s') →
        (∀ v, r ≠ .ok v) →
        (∀ chain, fb = some chain →
          call_dependency cfg s tA tC rcfg f fb
            = (.fromFallback chain.execute.1, s', some chain.execute.2.1))
        ∧ (fb = none →
          call_dependency cfg s tA tC rcfg f fb = (propagate r, s', none))) := by
  constructor
  · intro v s' h
    unfold call_dependency
    rw [h]
  · intro r s' h hr
    constructor
    · intro chain hfb
      unfold call_dependency
      rw [h, hfb]
      cases r with
      | ok v => exact absurd rfl (hr v)
      | circuitOpen t => rfl
      | retryExhausted a le => rfl
      | raised e => rfl
    · intro hfb
      unfold call_dependency
      rw [h, hfb]
      cases r with
      | ok v => exact absurd rfl (hr v)
      | circuitOpen t => rfl
      | retryExhausted a le => rfl
      | raised e => rfl

/-- Witness for C9: a breaker already Open (and inside its timeout) rejects
the composed call with `CircuitOpenError`, and `call_dependency` delegates to
the registered single-fallback chain, returning its value. -/
theorem claim_C9_witness :
    call_dependency ⟨5, 3, 30, 3⟩
        ⟨.opened, 5, 0, some 0, 0, 0, 5, 5⟩ 10 10 ⟨3, 1, 60, 2, true, 1/4⟩
        (fun _ => .retryable 7)
        (some ⟨"llm", .error 9, [(0, "cache", .ok 5)], "primary", 0, 0⟩)
      = (.fromFallback (.ok 5),
         ⟨.opened, 5, 0, some 0, 0, 0, 5, 5⟩,
         some ⟨"llm", .error 9, [(0, "cache", .ok 5)], "cache", 1, 1⟩) :=
  ((claim_C9 ⟨5, 3, 30, 3⟩ ⟨.opened, 5, 0, some 0, 0, 0, 5, 5⟩ 10 10
      ⟨3, 1, 60, 2, true, 1/4⟩ (fun _ => .retryable 7)
      (some ⟨"llm", .error 9, [(0, "cache", .ok 5)], "primary", 0, 0⟩)).2
    (.circuitOpen 20) ⟨.opened, 5, 0, some 0, 0, 0, 5, 5⟩ (by decide)
    (fun v hv => by cases hv)).1
    ⟨"llm", .error 9, [(0, "cache", .ok 5)], "primary", 0, 0⟩ rfl

/-! ## Circuit breaker claims (C1, C3, C4) -/

@[simp]
theorem runTrace_nil (cfg : CircuitBreakerConfig) (s : CBState) :
    runTrace cfg s [] = s := rfl

@[simp]
theorem runTrace_cons (cfg : CircuitBreakerConfig) (s : CBState)
    (e : CallEvent) (es : List CallEvent) :
    runTrace cfg s (e :: es) = runTrace cfg (callCB cfg s e).2 es := rfl

theorem runTrace_append (cfg : CircuitBreakerConfig) (s : CBState)
    (l1 l2 : List CallEvent) :
    runTrace cfg s (l1 ++ l2) = runTrace cfg (runTrace cfg s l1) l2 :=
  List.foldl_append ..

/-- Neither success nor failure bookkeeping touches `half_open_calls`. -/
@[simp]
theorem onSuccess_hoc (cfg : CircuitBreakerConfig) (s : CBState) (now : ℤ) :
    (onSuccess cfg s now).half_open_calls = s.half_open_calls := by
  unfold onSuccess transitionTo
  cases s.state <;> simp only [] <;> split <;> rfl

@[simp]
theorem onFailure_hoc (cfg : CircuitBreakerConfig) (s : CBState) (now : ℤ) :
    (onFailure cfg s now).half_open_calls = s.half_open_calls := by
  unfold onFailure transitionTo
  cases s.state <;> simp only [] <;> split <;> rfl

/-- `_can_execute` keeps `half_open_calls` within `half_open_max_calls`. -/
theorem canExecute_hoc (cfg : CircuitBreakerConfig) (s : CBState) (now : ℤ)
    (hle : s.half_open_calls ≤ cfg.half_open_max_calls) :
    (canExecute cfg s now).2.2.half_open_calls ≤ cfg.half_open_max_calls := by
  unfold canExecute transitionTo
  cases hs : s.state with
  | closed => exact hle
  | opened =>
    cases hlf : s.last_failure_time with
    | some lf =>
      by_cases ht : cfg.timeout_seconds ≤ now - lf <;> simp [ht, hle]
    | none => exact hle
  | halfOpen =>
    by_cases hadm : s.half_open_calls < cfg.half_open_max_calls <;>
      simp [hadm, hle]
    omega

/-- One `call` keeps `half_open_calls` within `half_open_max_calls`. -/
theorem callCB_hoc (cfg : CircuitBreakerConfig) (s : CBState) (e : CallEvent)
    (hle : s.half_open_calls ≤ cfg.half_open_max_calls) :
    (callCB cfg s e).2.half_open_calls ≤ cfg.half_open_max_calls := by
  have h := canExecute_hoc cfg s e.tAdmit hle
  unfold callCB
  rcases hc : canExecute cfg s e.tAdmit with ⟨can, t, s1⟩
  rw [hc] at h
  cases can with
  | false => exact h
  | true => cases e.outcome <;> simpa using h

/-- Invariant half of C1: along any trace, `half_open_calls` never exceeds
`half_open_max_calls`. -/
theorem runTrace_hoc (cfg : CircuitBreakerConfig) :
    ∀ (es : List CallEvent) (s : CBState),
      s.half_open_calls ≤ cfg.half_open_max_calls →
      (runTrace cfg s es).half_open_calls ≤ cfg.half_open_max_calls := by
  intro es
  induction es with
  | nil => intro s hle; simpa using hle
  | cons e rest ih =>
    intro s hle
    rw [runTrace_cons]
    exact ih _ (callCB_hoc cfg s e hle)

theorem hoAdmitted_not_halfOpen (cfg : CircuitBreakerConfig) (s : CBState)
    (es : List CallEvent) (hns : s.state ≠ .halfOpen) :
    hoAdmitted cfg s es = 0 := by
  cases es with
  | nil => rfl
  | cons e rest =>
    rw [hoAdmitted]
    cases hs : s.state with
    | halfOpen => exact absurd hs hns
    | closed => rfl
    | opened => rfl

theorem hoAdmitted_cons_halfOpen (cfg : CircuitBreakerConfig) (s : CBState)
    (e : CallEvent) (rest : List CallEvent) (hs : s.state = .halfOpen) :
    hoAdmitted cfg s (e :: rest)
      = (if (callCB cfg s e).1.invoked then 1 else 0)
        + hoAdmitted cfg (callCB cfg s e).2 rest := by
  rw [hoAdmitted, hs]

/-- An admitted HALF_OPEN call invokes the function and bumps
`half_open_calls` by one. -/
theorem callCB_halfOpen_admitted (cfg : CircuitBreakerConfig) (s : CBState)
    (e : CallEvent) (hs : s.state = .halfOpen)
    (hadm : s.half_open_calls < cfg.half_open_max_calls) :
    (callCB cfg s e).1.invoked = true
    ∧ (callCB cfg s e).2.half_open_calls = s.half_open_calls + 1 := by
  cases ho : e.outcome <;>
    simp [callCB, canExecute, hs, hadm, ho, CallResult.invoked]

/-- A rejected HALF_OPEN call leaves the state untouched. -/
theorem callCB_halfOpen_rejected (cfg : CircuitBreakerConfig) (s : CBState)
    (e : CallEvent) (hs : s.state = .halfOpen)
    (hadm : ¬ s.half_open_calls < cfg.half_open_max_calls) :
    callCB cfg s e = (.rejected 0, s) := by
  simp [callCB, canExecute, hs, hadm]

/-- Episode half of C1: from any HALF_OPEN state, at most
`half_open_max_calls - half_open_calls` further calls are admitted while the
breaker stays HALF_OPEN. -/
theorem hoAdmitted_le (cfg : CircuitBreakerConfig) :
    ∀ (es : List CallEvent) (s : CBState), s.state = .halfOpen →
      hoAdmitted cfg s es
        ≤ cfg.half_open_max_calls - s.half_open_calls := by
  intro es
  induction es with
  | nil => intro s _; simp [hoAdmitted]
  | cons e rest ih =>
    intro s hs
    rw [hoAdmitted_cons_halfOpen cfg s e rest hs]
    by_cases hadm : s.half_open_calls < cfg.half_open_max_calls
    · obtain ⟨hinv, hhoc⟩ := callCB_halfOpen_admitted cfg s e hs hadm
      rw [hinv, if_pos rfl]
      by_cases hstate : (callCB cfg s e).2.state = .halfOpen
      · have h2 := ih (callCB cfg s e).2 hstate
        omega
      · rw [hoAdmitted_not_halfOpen cfg _ rest hstate]
        omega
    · rw [callCB_halfOpen_rejected cfg s e hs hadm]
      have := ih s hs
      simpa [CallResult.invoked] using this

/-- C1 is false as stated: with `half_open_max_calls = 1`, the call that
triggers the Open→HalfOpen transition is admitted without being counted in
`half_open_calls`, so two calls (the events at t=10 and t=11) are admitted to
the wrapped function while the breaker is continuously HalfOpen before the
call at t=12 is rejected — more than `half_open_max_calls`. -/
theorem claim_C1_counterexample :
    ((runTrace (⟨1, 10, 5, 1⟩ : CircuitBreakerConfig) (CBState.init 0)
        [⟨0, 0, .failure⟩]).state = .opened)
    ∧ ((canExecute ⟨1, 10, 5, 1⟩
          (runTrace ⟨1, 10, 5, 1⟩ (CBState.init 0) [⟨0, 0, .failure⟩])
          10).2.2.state = .halfOpen)
    ∧ ((callCB ⟨1, 10, 5, 1⟩
          (runTrace ⟨1, 10, 5, 1⟩ (CBState.init 0) [⟨0, 0, .failure⟩])
          ⟨10, 10, .success⟩).1.invoked = true)
    ∧ ((callCB ⟨1, 10, 5, 1⟩
          (runTrace ⟨1, 10, 5, 1⟩ (CBState.init 0) [⟨0, 0, .failure⟩])
          ⟨10, 10, .success⟩).2.state = .halfOpen)
    ∧ ((callCB ⟨1, 10, 5, 1⟩
          (runTrace ⟨1, 10, 5, 1⟩ (CBState.init 0)
            [⟨0, 0, .failure⟩, ⟨10, 10, .success⟩])
          ⟨11, 11, .success⟩).1.invoked = true)
    ∧ ((callCB ⟨1, 10, 5, 1⟩
          (runTrace ⟨1, 10, 5, 1⟩ (CBState.init 0)
            [⟨0, 0, .failure⟩, ⟨10, 10, .success⟩])
          ⟨11, 11, .success⟩).2.state = .halfOpen)
    ∧ ((callCB ⟨1, 10, 5, 1⟩
          (runTrace ⟨1, 10, 5, 1⟩ (CBState.init 0)
            [⟨0, 0, .failure⟩, ⟨10, 10, .success⟩, ⟨11, 11, .success⟩])
          ⟨12, 12, .success⟩).1.invoked = false)
    ∧ (CircuitBreakerConfig.half_open_max_calls ⟨1, 10, 5, 1⟩ = 1) := by
  decide

/-- C1 (amended): `half_open_calls` never exceeds `half_open_max_calls` along
any trace; while the breaker stays HalfOpen, at most
`half_open_max_calls - half_open_calls` further calls are admitted; but the
call that triggers the Open→HalfOpen transition is itself admitted with
`half_open_calls` reset to `0`, uncounted — so an episode admits up to
`half_open_max_calls + 1` calls in total. -/
theorem claim_C1_amended (cfg : CircuitBreakerConfig) (s : CBState)
    (es : List CallEvent) :
    (s.half_open_calls ≤ cfg.half_open_max_calls →
      (runTrace cfg s es).half_open_calls ≤ cfg.half_open_max_calls)
    ∧ (s.state = .halfOpen →
      hoAdmitted cfg s es ≤ cfg.half_open_max_calls - s.half_open_calls)
    ∧ (∀ now lf, s.state = .opened → s.last_failure_time = some lf →
        cfg.timeout_seconds ≤ now - lf →
        canExecute cfg s now
          = (true, 0,
             { transitionTo s .halfOpen now with half_open_calls := 0 })) := by
  refine ⟨fun hle => runTrace_hoc cfg es s hle,
          fun hs => hoAdmitted_le cfg es s hs, ?_⟩
  intro now lf hs hlf ht
  simp [canExecute, hs, hlf, ht]

/-- Witness for the amended C1, applied at a HalfOpen state (invariant and
episode bound) and at an Open state past its timeout (uncounted transition
admission). -/
theorem claim_C1_amended_witness :
    ((runTrace ⟨1, 10, 5, 2⟩ ⟨.halfOpen, 1, 0, some 0, 3, 0, 2, 1⟩
        [⟨4, 4, .success⟩, ⟨5, 5, .success⟩, ⟨6, 6, .success⟩]).half_open_calls
      ≤ 2)
    ∧ (hoAdmitted ⟨1, 10, 5, 2⟩ ⟨.halfOpen, 1, 0, some 0, 3, 0, 2, 1⟩
        [⟨4, 4, .success⟩, ⟨5, 5, .success⟩, ⟨6, 6, .success⟩] ≤ 2 - 0)
    ∧ (canExecute ⟨1, 10, 5, 2⟩ ⟨.opened, 1, 0, some 0, 0, 2, 2, 1⟩ 9
        = (true, 0,
           { transitionTo ⟨.opened, 1, 0, some 0, 0, 2, 2, 1⟩ .halfOpen 9 with
              half_open_calls := 0 })) :=
  ⟨(claim_C1_amended ⟨1, 10, 5, 2⟩ ⟨.halfOpen, 1, 0, some 0, 3, 0, 2, 1⟩
      [⟨4, 4, .success⟩, ⟨5, 5, .success⟩, ⟨6, 6, .success⟩]).1 (by decide),
   (claim_C1_amended ⟨1, 10, 5, 2⟩ ⟨.halfOpen, 1, 0, some 0, 3, 0, 2, 1⟩
      [⟨4, 4, .success⟩, ⟨5, 5, .success⟩, ⟨6, 6, .success⟩]).2.1 (by decide),
   (claim_C1_amended ⟨1, 10, 5, 2⟩ ⟨.opened, 1, 0, some 0, 0, 2, 2, 1⟩
      []).2.2 9 0 (by decide) (by decide) (by decide)⟩

/-- C3 is false as stated: with `success_threshold = 2`, the trace
fail@0, success@10, fail@11 leaves the breaker Open with a stale
`success_count = 1` (never reset on entering or leaving HalfOpen); the
admitted call at t=20 starts a fresh HalfOpen episode carrying that stale
count, and its single success — fewer than `success_threshold` consecutive
successes within this episode, with no intervening failure since entering
HalfOpen — immediately transitions the breaker to Closed. -/
theorem claim_C3_counterexample :
    ((runTrace (⟨1, 2, 5, 5⟩ : CircuitBreakerConfig) (CBState.init 0)
        [⟨0, 0, .failure⟩, ⟨10, 10, .success⟩, ⟨11, 11, .failure⟩]).state
      = .opened)
    ∧ ((canExecute ⟨1, 2, 5, 5⟩
          (runTrace ⟨1, 2, 5, 5⟩ (CBState.init 0)
            [⟨0, 0, .failure⟩, ⟨10, 10, .success⟩, ⟨11, 11, .failure⟩])
          20).2.2.state = .halfOpen)
    ∧ ((canExecute ⟨1, 2, 5, 5⟩
          (runTrace ⟨1, 2, 5, 5⟩ (CBState.init 0)
            [⟨0, 0, .failure⟩, ⟨10, 10, .success⟩, ⟨11, 11, .failure⟩])
          20).2.2.success_count = 1)
    ∧ ((callCB ⟨1, 2, 5, 5⟩
          (runTrace ⟨1, 2, 5, 5⟩ (CBState.init 0)
            [⟨0, 0, .failure⟩, ⟨10, 10, .success⟩, ⟨11, 11, .failure⟩])
          ⟨20, 20, .success⟩).2.state = .closed)
    ∧ ((1 : ℕ) < CircuitBreakerConfig.success_threshold ⟨1, 2, 5, 5⟩) := by
  decide

/-- C3 (amended): an admitted success in HalfOpen transitions the breaker to
Closed — zeroing `failure_count` and `success_count` — exactly when the
running `success_count + 1` reaches `success_threshold`; otherwise it stays
HalfOpen with `success_count` incremented.  Since `success_count` is not
reset on entering HalfOpen, successes from earlier HalfOpen episodes since
the last transition to Closed (or manual reset) count toward the
threshold. -/
theorem claim_C3_amended (cfg : CircuitBreakerConfig) (s : CBState)
    (e : CallEvent) (hs : s.state = .halfOpen)
    (hadm : s.half_open_calls < cfg.half_open_max_calls)
    (ho : e.outcome = .success) :
    ((callCB cfg s e).2.state = .closed
      ↔ cfg.success_threshold ≤ s.success_count + 1)
    ∧ (cfg.success_threshold ≤ s.success_count + 1 →
        (callCB cfg s e).2.failure_count = 0
        ∧ (callCB cfg s e).2.success_count = 0)
    ∧ (¬ cfg.success_threshold ≤ s.success_count + 1 →
        (callCB cfg s e).2.state = .halfOpen
        ∧ (callCB cfg s e).2.success_count = s.success_count + 1) := by
  by_cases hth : cfg.success_threshold ≤ s.success_count + 1 <;>
    simp [callCB, canExecute, onSuccess, transitionTo, hs, hadm, ho, hth]

/-- Witness for the amended C3: threshold 3, stale `success_count = 2`, one
admitted success closes the breaker and zeroes both counters. -/
theorem claim_C3_amended_witness :
    ((callCB ⟨1, 3, 5, 5⟩ ⟨.halfOpen, 1, 2, some 0, 6, 0, 4, 1⟩
        ⟨7, 7, .success⟩).2.state = .closed ↔ (3 : ℕ) ≤ 2 + 1)
    ∧ ((3 : ℕ) ≤ 2 + 1 →
        (callCB ⟨1, 3, 5, 5⟩ ⟨.halfOpen, 1, 2, some 0, 6, 0, 4, 1⟩
          ⟨7, 7, .success⟩).2.failure_count = 0
        ∧ (callCB ⟨1, 3, 5, 5⟩ ⟨.halfOpen, 1, 2, some 0, 6, 0, 4, 1⟩
            ⟨7, 7, .success⟩).2.success_count = 0)
    ∧ (¬ (3 : ℕ) ≤ 2 + 1 →
        (callCB ⟨1, 3, 5, 5⟩ ⟨.halfOpen, 1, 2, some 0, 6, 0, 4, 1⟩
          ⟨7, 7, .success⟩).2.state = .halfOpen
        ∧ (callCB ⟨1, 3, 5, 5⟩ ⟨.halfOpen, 1, 2, some 0, 6, 0, 4, 1⟩
            ⟨7, 7, .success⟩).2.success_count = 2 + 1) :=
  claim_C3_amended ⟨1, 3, 5, 5⟩ ⟨.halfOpen, 1, 2, some 0, 6, 0, 4, 1⟩
    ⟨7, 7, .success⟩ rfl (by decide) rfl

/-- A run of failing calls in CLOSED state that stays strictly below
`failure_threshold` keeps the breaker Closed and counts each failure. -/
theorem closed_fail_run (cfg : CircuitBreakerConfig) :
    ∀ (es : List CallEvent) (s : CBState),
      s.state = .closed →
      (∀ e ∈ es, e.outcome = .failure) →
      s.failure_count + es.length < cfg.failure_threshold →
      (runTrace cfg s es).state = .closed
      ∧ (runTrace cfg s es).failure_count = s.failure_count + es.length := by
  intro es
  induction es with
  | nil => intro s hs _ _; exact ⟨hs, rfl⟩
  | cons e rest ih =>
    intro s hs hall hlt
    have ho : e.outcome = .failure := hall e (List.mem_cons_self e rest)
    have hth : ¬ cfg.failure_threshold ≤ s.failure_count + 1 := by
      simp only [List.length_cons] at hlt
      omega
    have hstate : (callCB cfg s e).2.state = .closed := by
      simp [callCB, canExecute, onFailure, transitionTo, hs, ho, hth]
    have hfc : (callCB cfg s e).2.failure_count = s.failure_count + 1 := by
      simp [callCB, canExecute, onFailure, transitionTo, hs, ho, hth]
    rw [runTrace_cons]
    have := ih (callCB cfg s e).2 hstate
      (fun x hx => hall x (List.mem_cons_of_mem e hx))
      (by simp only [List.length_cons] at hlt; omega)
    refine ⟨this.1, ?_⟩
    rw [this.2, hfc]
    simp only [List.length_cons]
    omega

/-- The failing call that reaches `failure_threshold` opens the breaker and
stamps `last_failure_time` with the failure's completion time. -/
theorem callCB_closed_fail_open (cfg : CircuitBreakerConfig) (s : CBState)
    (e : CallEvent) (hs : s.state = .closed) (ho : e.outcome = .failure)
    (hth : cfg.failure_threshold ≤ s.failure_count + 1) :
    (callCB cfg s e).2.state = .opened
    ∧ (callCB cfg s e).2.last_failure_time = some e.tComplete := by
  constructor <;> simp [callCB, canExecute, onFailure, transitionTo, hs, ho, hth]

/-- An Open breaker still inside its timeout window rejects the call with the
remaining wait time and leaves the state untouched. -/
theorem callCB_open_rejected (cfg : CircuitBreakerConfig) (s : CBState)
    (e : CallEvent) (lf : ℤ) (hs : s.state = .opened)
    (hlf : s.last_failure_time = some lf)
    (ht : e.tAdmit - lf < cfg.timeout_seconds) :
    callCB cfg s e = (.rejected (cfg.timeout_seconds - (e.tAdmit - lf)), s) := by
  have h1 : ¬ cfg.timeout_seconds ≤ e.tAdmit - lf := not_le.mpr ht
  simp [callCB, canExecute, hs, hlf, h1]

/-- C4: from Closed with `failure_count = 0`, every proper prefix of a run of
exactly `failure_threshold` failing (non-excluded) calls leaves the breaker
Closed, the full run leaves it Open, and any further call made before
`timeout_seconds` have elapsed since the last failure is rejected with
`CircuitOpenError` (carrying the remaining wait) without invoking the wrapped
function. -/
theorem claim_C4 (cfg : CircuitBreakerConfig) (s : CBState)
    (es : List CallEvent) (hs : s.state = .closed) (hfc : s.failure_count = 0)
    (hth : 1 ≤ cfg.failure_threshold)
    (hlen : es.length = cfg.failure_threshold)
    (hall : ∀ e ∈ es, e.outcome = .failure) :
    (∀ k < cfg.failure_threshold, (runTrace cfg s (es.take k)).state = .closed)
    ∧ (runTrace cfg s es).state = .opened
    ∧ ∃ lf, (runTrace cfg s es).last_failure_time = some lf
        ∧ ∀ e' : CallEvent, e'.tAdmit - lf < cfg.timeout_seconds →
            callCB cfg (runTrace cfg s es) e'
              = (.rejected (cfg.timeout_seconds - (e'.tAdmit - lf)),
                 runTrace cfg s es)
            ∧ (callCB cfg (runTrace cfg s es) e').1.invoked = false := by
  have htake : ∀ k < cfg.failure_threshold,
      (runTrace cfg s (es.take k)).state = .closed := by
    intro k hk
    have hlen' : (es.take k).length = k := by
      rw [List.length_take]
      omega
    have := closed_fail_run cfg (es.take k) s hs
      (fun x hx => hall x (List.mem_of_mem_take hx))
      (by rw [hlen', hfc]; omega)
    exact this.1
  rcases List.eq_nil_or_concat es with hnil | ⟨es', elast, hsplit⟩
  · rw [hnil] at hlen
    simp at hlen
    omega
  · rw [List.concat_eq_append] at hsplit
    subst hsplit
    have hlen' : es'.length + 1 = cfg.failure_threshold := by
      simpa using hlen
    have hpre := closed_fail_run cfg es' s hs
      (fun x hx => hall x (by simp [hx]))
      (by omega)
    have hlaste : elast.outcome = .failure := hall elast (by simp)
    have hcross := callCB_closed_fail_open cfg (runTrace cfg s es') elast
      hpre.1 hlaste (by rw [hpre.2]; omega)
    rw [runTrace_append]
    refine ⟨htake, ?_, elast.tComplete, ?_, ?_⟩
    · simpa using hcross.1
    · simpa using hcross.2
    · intro e' ht
      have hrej := callCB_open_rejected cfg
        (runTrace cfg (runTrace cfg s es') [elast]) e' elast.tComplete
        (by simpa using hcross.1) (by simpa using hcross.2) ht
      exact ⟨hrej, by rw [hrej]; rfl⟩

/-- Witness for C4: default-free config with `failure_threshold = 2`, two
failing calls from a fresh breaker, then a rejected call at t=3 (inside the
30-second timeout window since the failure at t=1). -/
theorem claim_C4_witness :
    (∀ k < (⟨2, 3, 30, 3⟩ : CircuitBreakerConfig).failure_threshold,
      (runTrace ⟨2, 3, 30, 3⟩ (CBState.init 0)
        ([⟨0, 0, .failure⟩, ⟨1, 1, .failure⟩].take k)).state = .closed)
    ∧ (runTrace ⟨2, 3, 30, 3⟩ (CBState.init 0)
        [⟨0, 0, .failure⟩, ⟨1, 1, .failure⟩]).state = .opened
    ∧ ∃ lf, (runTrace ⟨2, 3, 30, 3⟩ (CBState.init 0)
          [⟨0, 0, .failure⟩, ⟨1, 1, .failure⟩]).last_failure_time = some lf
        ∧ ∀ e' : CallEvent,
            e'.tAdmit - lf < (⟨2, 3, 30, 3⟩ : CircuitBreakerConfig).timeout_seconds →
            callCB ⟨2, 3, 30, 3⟩
              (runTrace ⟨2, 3, 30, 3⟩ (CBState.init 0)
                [⟨0, 0, .failure⟩, ⟨1, 1, .failure⟩]) e'
              = (.rejected ((⟨2, 3, 30, 3⟩ : CircuitBreakerConfig).timeout_seconds
                    - (e'.tAdmit - lf)),
                 runTrace ⟨2, 3, 30, 3⟩ (CBState.init 0)
                  [⟨0, 0, .failure⟩, ⟨1, 1, .failure⟩])
            ∧ (callCB ⟨2, 3, 30, 3⟩
                (runTrace ⟨2, 3, 30, 3⟩ (CBState.init 0)
                  [⟨0, 0, .failure⟩, ⟨1, 1, .failure⟩]) e').1.invoked = false :=
  claim_C4 ⟨2, 3, 30, 3⟩ (CBState.init 0)
    [⟨0, 0, .failure⟩, ⟨1, 1, .failure⟩] rfl rfl (by decide) rfl (by decide)

end AvatarDocker
